import Mathlib

/-!
Verification development for the tree-sitter-systemrdl repository.

The repository's substantive source is `src/grammar.js`, a declarative
tree-sitter grammar for SystemRDL 2.0.  We embed the grammar rule table as
data (`RName`, `Rule`, `rules`), transliterated rule-by-rule from
`grammar.js`, together with executable matchers for the lexical token
regexes (`identifier`, `number`, `string_literal`, `comment`).

The runtime parsing engine (the generated `src/parser.c` referenced by the
build descriptors, i.e. the tree-sitter runtime) is not present under
`src/`; following the specification's description of the engine
(ordered-choice conflict resolution: alternatives are attempted in declared
priority order and the first success is committed; error recovery wraps
unparseable spans in ERROR nodes and always terminates), we model it as a
fuel-bounded interpreter `runR` over the embedded rule table, and an
error-recovering top-level loop `parseTopF`.
-/

namespace SystemRDL

/-- Character in an inclusive range (used to transliterate regex character
classes such as `[0-9a-fA-F]`). -/
def between (lo hi c : Char) : Bool := decide (lo ≤ c ∧ c ≤ hi)

/-- Digit class `[0-9]`. -/
def isDecDigit (c : Char) : Bool := between '0' '9' c

/-- Digit class `[0-9a-fA-F]`. -/
def isHexDigit (c : Char) : Bool :=
  isDecDigit c || between 'a' 'f' c || between 'A' 'F' c

/-- Digit class `[01]`. -/
def isBinDigit (c : Char) : Bool := c == '0' || c == '1'

/-- Digit class `[0-7]`. -/
def isOctDigit (c : Char) : Bool := between '0' '7' c

/-- First character of the `identifier` regex `[A-Za-z_]` (grammar.js line 506). -/
def isIdentStart (c : Char) : Bool :=
  between 'A' 'Z' c || between 'a' 'z' c || c == '_'

/-- Continuation character of the `identifier` regex `[A-Za-z0-9_]`. -/
def isIdentChar (c : Char) : Bool := isIdentStart c || isDecDigit c

/-- Full-string match of the `identifier` token regex
`[A-Za-z_][A-Za-z0-9_]*` (grammar.js line 506). -/
def identMatches (s : String) : Bool :=
  match s.data with
  | [] => false
  | c :: cs => isIdentStart c && cs.all isIdentChar

/-- Full-list match of the regex fragment `(_? d)*` that follows the first
digit in each branch of the `number` token regex (grammar.js line 431):
each iteration consumes either an underscore followed by a digit, or a
single digit. -/
def chainTail (isD : Char → Bool) : List Char → Bool
  | [] => true
  | c :: cs =>
    if c = '_' then
      match cs with
      | [] => false
      | d :: ds => isD d && chainTail isD ds
    else
      isD c && chainTail isD cs

/-- Full-list match of `d (_? d)*`: one digit, then separator chain. -/
def chain1 (isD : Char → Bool) (l : List Char) : Bool :=
  match l with
  | [] => false
  | c :: cs => isD c && chainTail isD cs

/-- Hexadecimal branch `0[xX][0-9a-fA-F](_?[0-9a-fA-F])*` of the `number`
token regex (grammar.js line 431). -/
def hexB (l : List Char) : Bool :=
  match l with
  | c0 :: c1 :: rest => c0 == '0' && (c1 == 'x' || c1 == 'X') && chain1 isHexDigit rest
  | _ => false

/-- Binary branch `0[bB][01](_?[01])*` of the `number` token regex. -/
def binB (l : List Char) : Bool :=
  match l with
  | c0 :: c1 :: rest => c0 == '0' && (c1 == 'b' || c1 == 'B') && chain1 isBinDigit rest
  | _ => false

/-- Octal branch `0[oO][0-7](_?[0-7])*` of the `number` token regex. -/
def octB (l : List Char) : Bool :=
  match l with
  | c0 :: c1 :: rest => c0 == '0' && (c1 == 'o' || c1 == 'O') && chain1 isOctDigit rest
  | _ => false

/-- Decimal branch `[0-9](_?[0-9])*` of the `number` token regex. -/
def decB (l : List Char) : Bool := chain1 isDecDigit l

/-- Full-string match of the `number` token regex (grammar.js line 431):
`0[xX][0-9a-fA-F](_?[0-9a-fA-F])*|0[bB][01](_?[01])*|0[oO][0-7](_?[0-7])*|[0-9](_?[0-9])*`. -/
def numberMatches (s : String) : Bool :=
  hexB s.data || binB s.data || octB s.data || decB s.data

/-- Scan of a string-literal token body after the opening quote
(grammar.js lines 432-439): the body is `repeat(choice(/[^"\\\n]/,
seq('\\', /./)))` followed by the closing quote.  Tree-sitter regexes use
Rust-regex semantics, where `.` matches any character except a newline, so
the escape branch `seq('\\', /./)` accepts a backslash followed by any
character other than a newline. -/
def strTail : List Char → Bool
  | [] => false
  | '"' :: cs => cs.isEmpty
  | '\\' :: [] => false
  | '\\' :: c :: cs => !(c == '\n') && strTail cs
  | c :: cs => !(c == '\n') && strTail cs

/-- Full-string match of the `string_literal` token (grammar.js lines
432-439): an opening `"`, a body of plain characters (`[^"\\\n]`) and
escape pairs (`\\` followed by any non-newline character), and a closing
`"`. -/
def stringLitMatches (s : String) : Bool :=
  match s.data with
  | '"' :: cs => strTail cs
  | _ => false

/-- Body of a block comment after the opening `/*` (grammar.js line 513):
the regex `[^*]*\*+(?:[^/*][^*]*\*+)*\/` terminates at the first `*/`, so a
full-token match is a character list whose only occurrence of `*/` is at
the very end. -/
def blockTail : List Char → Bool
  | '*' :: '/' :: cs => cs.isEmpty
  | _ :: cs => blockTail cs
  | [] => false

/-- Full-string match of the `comment` token (grammar.js lines 511-514):
a line comment `//` up to end of line, or a block comment `/* ... */`
terminated by the first `*/`. -/
def commentMatches (s : String) : Bool :=
  match s.data with
  | '/' :: '/' :: cs => cs.all (fun c => !(c == '\n'))
  | '/' :: '*' :: cs => blockTail cs
  | _ => false

/-- The lexical token classes referenced by `token(...)` rules in
grammar.js. -/
inductive TKind where
  | ident | num | str | comm
deriving DecidableEq

/-- Which token texts a lexical token class accepts. -/
def tkMatch : TKind → String → Bool
  | .ident, s => identMatches s
  | .num, s => numberMatches s
  | .str, s => stringLitMatches s
  | .comm, s => commentMatches s

/-- The rule names of the grammar (the keys of the `rules` object in
grammar.js, in source order).  `description'` stands for the hidden rule
`_description`; `ERROR` is the error-node kind synthesized by the runtime's
error recovery, not a grammar rule. -/
inductive RName where
  | source_file
  | description'
  | property_definition
  | property_attribute
  | property_type
  | property_data_type
  | property_usage
  | property_comp_types
  | property_comp_type
  | property_default
  | property_constraint
  | property_constraint_type
  | component_def
  | component_named_def
  | component_anon_def
  | component_body
  | component_body_elem
  | component_type
  | component_primary_type
  | explicit_component_inst
  | component_insts
  | component_inst
  | component_inst_alias
  | component_inst_type
  | component_inst_array_or_range
  | struct_def
  | struct_body
  | struct_elem
  | struct_type
  | constraint_def
  | constraint_def_exp
  | constraint_def_anon
  | constraint_insts
  | constraint_body
  | constraint_prop_assignment
  | constraint_elem
  | constraint_values
  | constraint_value
  | constraint_lhs
  | param_def
  | param_def_elem
  | param_inst
  | param_elem
  | param_value
  | enum_def
  | enum_body
  | enum_entry
  | enum_property_assignment
  | property_assignment
  | explicit_or_default_prop_assignment
  | explicit_prop_modifier
  | explicit_encode_assignment
  | explicit_prop_assignment
  | post_encode_assignment
  | post_prop_assignment
  | prop_mod
  | prop_assignment_lhs
  | prop_keyword
  | prop_assignment_rhs
  | struct_literal
  | struct_literal_elem
  | array_literal
  | array_literal_body
  | instance_ref
  | prop_ref
  | instance_or_prop_ref
  | instance_ref_element
  | range
  | array
  | array_type
  | constant_concatenation
  | constant_multiple_concatenation
  | integer_type
  | integer_atom_type
  | integer_vector_type
  | simple_type
  | signing
  | basic_data_type
  | data_type
  | boolean_literal
  | number
  | string_literal
  | enumerator_literal
  | accesstype_literal
  | onreadtype_literal
  | onwritetype_literal
  | addressingtype_literal
  | precedencetype_literal
  | accesstype
  | addressingtype
  | onreadtype
  | onwritetype
  | constant_expression
  | constant_primary
  | primary_literal
  | binary_operator
  | unary_operator
  | constant_cast
  | casting_type
  | identifier
  | comment
  | ERROR
deriving DecidableEq, Fintype

/-- The rule combinators of the tree-sitter DSL used by grammar.js:
string terminals, `token(...)` regex terminals, rule references `$.x`,
`seq`, `choice`, `repeat`, `repeat1`, `optional`, `field`, and
`prec.left`. -/
inductive Rule where
  | sym : String → Rule
  | rex : TKind → Rule
  | ref : RName → Rule
  | seqs : List Rule → Rule
  | choice : List Rule → Rule
  | rep : Rule → Rule
  | rep1 : Rule → Rule
  | opt : Rule → Rule
  | fld : String → Rule → Rule
  | precLeft : Rule → Rule

-- (no derived instances needed on `Rule`)

/-- The grammar rule table, transliterated rule-by-rule from the `rules`
object of grammar.js (brace terminals are written with their character
codes `\x7b` = left brace and `\x7d` = right brace, and `\x27` is the
apostrophe terminal of `constant_cast`).  `ERROR` is not a grammar rule
and has an empty choice (it never matches). -/
def rules : RName → Rule
  | .source_file => .rep (.ref .description')
  | .description' => .choice [.ref .component_def, .ref .enum_def,
      .ref .property_definition, .ref .struct_def, .ref .constraint_def,
      .ref .explicit_component_inst, .ref .property_assignment]
  | .property_definition => .seqs [.sym "property", .fld "name" (.ref .identifier),
      .sym "\x7b", .rep (.ref .property_attribute), .sym "\x7d", .sym ";"]
  | .property_attribute => .choice [.ref .property_type, .ref .property_usage,
      .ref .property_default, .ref .property_constraint]
  | .property_type => .seqs [.sym "type", .sym "=", .ref .property_data_type,
      .opt (.ref .array_type), .sym ";"]
  | .property_data_type => .choice [.ref .component_primary_type, .sym "ref",
      .ref .number, .ref .basic_data_type]
  | .property_usage => .seqs [.sym "component", .sym "=",
      .ref .property_comp_types, .sym ";"]
  | .property_comp_types => .seqs [.ref .property_comp_type,
      .rep (.seqs [.sym "|", .ref .property_comp_type])]
  | .property_comp_type => .choice [.ref .component_type, .sym "constraint", .sym "all"]
  | .property_default => .seqs [.sym "default", .sym "=",
      .ref .constant_expression, .sym ";"]
  | .property_constraint => .seqs [.sym "constraint", .sym "=",
      .ref .property_constraint_type, .sym ";"]
  | .property_constraint_type => .sym "componentwidth"
  | .component_def => .seqs [.opt (.ref .component_inst_type),
      .choice [.ref .component_named_def, .ref .component_anon_def],
      .opt (.ref .component_inst_type), .opt (.ref .component_insts), .sym ";"]
  | .component_named_def => .seqs [.ref .component_type,
      .fld "name" (.ref .identifier), .opt (.ref .param_def), .ref .component_body]
  | .component_anon_def => .seqs [.ref .component_type, .ref .component_body]
  | .component_body => .seqs [.sym "\x7b", .rep (.ref .component_body_elem), .sym "\x7d"]
  | .component_body_elem => .choice [.ref .component_def, .ref .enum_def,
      .ref .struct_def, .ref .constraint_def, .ref .explicit_component_inst,
      .ref .property_assignment]
  | .component_type => .choice [.ref .component_primary_type, .sym "signal"]
  | .component_primary_type => .choice [.sym "addrmap", .sym "regfile",
      .sym "reg", .sym "field", .sym "mem"]
  | .explicit_component_inst => .seqs [.opt (.ref .component_inst_type),
      .opt (.ref .component_inst_alias), .fld "name" (.ref .identifier),
      .ref .component_insts, .sym ";"]
  | .component_insts => .seqs [.opt (.ref .param_inst), .ref .component_inst,
      .rep (.seqs [.sym ",", .ref .component_inst])]
  | .component_inst => .seqs [.fld "instance" (.ref .identifier),
      .opt (.ref .component_inst_array_or_range),
      .opt (.seqs [.sym "=", .ref .constant_expression]),
      .opt (.seqs [.sym "@", .ref .constant_expression]),
      .opt (.seqs [.sym "+=", .ref .constant_expression]),
      .opt (.seqs [.sym "%=", .ref .constant_expression])]
  | .component_inst_alias => .seqs [.sym "alias", .ref .identifier]
  | .component_inst_type => .choice [.sym "external", .sym "internal"]
  | .component_inst_array_or_range => .choice
      [.seqs [.ref .array, .rep (.ref .array)], .ref .range]
  | .struct_def => .seqs [.opt (.sym "abstract"), .sym "struct",
      .fld "name" (.ref .identifier), .opt (.seqs [.sym ":", .ref .identifier]),
      .ref .struct_body, .sym ";"]
  | .struct_body => .seqs [.sym "\x7b", .rep (.ref .struct_elem), .sym "\x7d"]
  | .struct_elem => .seqs [.ref .struct_type, .fld "name" (.ref .identifier),
      .opt (.ref .array_type), .sym ";"]
  | .struct_type => .choice [.ref .data_type, .ref .component_type]
  | .constraint_def => .seqs [.sym "constraint",
      .choice [.ref .constraint_def_exp, .ref .constraint_def_anon], .sym ";"]
  | .constraint_def_exp => .seqs [.fld "name" (.ref .identifier),
      .ref .constraint_body, .opt (.ref .constraint_insts)]
  | .constraint_def_anon => .seqs [.ref .constraint_body, .ref .constraint_insts]
  | .constraint_insts => .seqs [.ref .identifier,
      .rep (.seqs [.sym ",", .ref .identifier])]
  | .constraint_body => .seqs [.sym "\x7b",
      .rep (.seqs [.ref .constraint_elem, .sym ";"]), .sym "\x7d"]
  | .constraint_prop_assignment => .seqs [.ref .identifier, .sym "=",
      .ref .constant_expression]
  | .constraint_elem => .choice [.ref .constant_expression,
      .ref .constraint_prop_assignment,
      .seqs [.ref .constraint_lhs, .sym "inside", .sym "\x7b",
        .ref .constraint_values, .sym "\x7d"],
      .seqs [.ref .constraint_lhs, .sym "inside", .ref .identifier]]
  | .constraint_values => .seqs [.ref .constraint_value,
      .rep (.seqs [.sym ",", .ref .constraint_value])]
  | .constraint_value => .choice [.ref .constant_expression,
      .seqs [.sym "[", .ref .constant_expression, .sym ":",
        .ref .constant_expression, .sym "]"]]
  | .constraint_lhs => .choice [.sym "this", .ref .instance_ref]
  | .param_def => .seqs [.sym "#", .sym "(", .ref .param_def_elem,
      .rep (.seqs [.sym ",", .ref .param_def_elem]), .sym ")"]
  | .param_def_elem => .seqs [.ref .data_type, .fld "name" (.ref .identifier),
      .opt (.ref .array_type), .opt (.seqs [.sym "=", .ref .constant_expression])]
  | .param_inst => .seqs [.sym "#", .sym "(", .ref .param_elem,
      .rep (.seqs [.sym ",", .ref .param_elem]), .sym ")"]
  | .param_elem => .seqs [.sym ".", .ref .identifier, .sym "(",
      .ref .param_value, .sym ")"]
  | .param_value => .ref .constant_expression
  | .enum_def => .seqs [.sym "enum", .fld "name" (.ref .identifier),
      .ref .enum_body, .sym ";"]
  | .enum_body => .seqs [.sym "\x7b", .rep1 (.ref .enum_entry), .sym "\x7d"]
  | .enum_entry => .seqs [.fld "name" (.ref .identifier),
      .opt (.seqs [.sym "=", .ref .constant_expression]),
      .opt (.ref .enum_property_assignment), .sym ";"]
  | .enum_property_assignment => .seqs [.sym "\x7b",
      .rep (.seqs [.ref .explicit_prop_assignment, .sym ";"]), .sym "\x7d"]
  | .property_assignment => .choice [.ref .explicit_or_default_prop_assignment,
      .ref .post_prop_assignment]
  | .explicit_or_default_prop_assignment => .seqs [.opt (.sym "default"),
      .choice [.ref .explicit_prop_modifier, .ref .explicit_prop_assignment], .sym ";"]
  | .explicit_prop_modifier => .seqs [.ref .prop_mod, .ref .identifier]
  | .explicit_encode_assignment => .seqs [.sym "encode", .sym "=", .ref .identifier]
  | .explicit_prop_assignment => .choice
      [.seqs [.ref .prop_assignment_lhs,
        .opt (.seqs [.sym "=", .ref .prop_assignment_rhs])],
       .ref .explicit_encode_assignment]
  | .post_encode_assignment => .seqs [.ref .instance_ref, .sym "->",
      .sym "encode", .sym "=", .ref .identifier]
  | .post_prop_assignment => .seqs [.choice
      [.seqs [.ref .prop_ref, .opt (.seqs [.sym "=", .ref .prop_assignment_rhs])],
       .ref .post_encode_assignment], .sym ";"]
  | .prop_mod => .choice [.sym "posedge", .sym "negedge", .sym "bothedge",
      .sym "level", .sym "nonsticky"]
  | .prop_assignment_lhs => .choice [.ref .prop_keyword, .ref .identifier]
  | .prop_keyword => .choice [.sym "sw", .sym "hw", .sym "rclr", .sym "rset",
      .sym "woclr", .sym "woset"]
  | .prop_assignment_rhs => .choice [.ref .constant_expression,
      .ref .precedencetype_literal]
  | .struct_literal => .seqs [.ref .identifier, .sym "\x7b",
      .opt (.seqs [.ref .struct_literal_elem,
        .rep (.seqs [.sym ",", .ref .struct_literal_elem])]), .sym "\x7d"]
  | .struct_literal_elem => .seqs [.ref .identifier, .sym ":",
      .ref .constant_expression]
  | .array_literal => .seqs [.sym "\x7b", .ref .array_literal_body, .sym "\x7d"]
  | .array_literal_body => .seqs [.ref .constant_expression,
      .rep (.seqs [.sym ",", .ref .constant_expression])]
  | .instance_ref => .seqs [.ref .instance_ref_element,
      .rep (.seqs [.sym ".", .ref .instance_ref_element])]
  | .prop_ref => .seqs [.ref .instance_ref, .sym "->",
      .choice [.ref .prop_keyword, .ref .identifier]]
  | .instance_or_prop_ref => .choice
      [.seqs [.ref .instance_ref, .sym "->", .ref .prop_keyword],
       .seqs [.ref .instance_ref, .sym "->", .ref .identifier],
       .ref .instance_ref]
  | .instance_ref_element => .seqs [.ref .identifier, .rep (.ref .array)]
  | .range => .seqs [.sym "[", .ref .constant_expression, .sym ":",
      .ref .constant_expression, .sym "]"]
  | .array => .seqs [.sym "[", .ref .constant_expression, .sym "]"]
  | .array_type => .seqs [.sym "[", .sym "]"]
  | .constant_concatenation => .seqs [.sym "\x7b", .ref .constant_expression,
      .rep (.seqs [.sym ",", .ref .constant_expression]), .sym "\x7d"]
  | .constant_multiple_concatenation => .seqs [.sym "\x7b",
      .ref .constant_expression, .ref .constant_concatenation, .sym "\x7d"]
  | .integer_type => .choice [.ref .integer_vector_type, .ref .integer_atom_type]
  | .integer_atom_type => .sym "longint"
  | .integer_vector_type => .sym "bit"
  | .simple_type => .ref .integer_type
  | .signing => .sym "unsigned"
  | .basic_data_type => .choice [.seqs [.ref .simple_type, .opt (.ref .signing)],
      .sym "string", .sym "boolean", .ref .identifier]
  | .data_type => .choice [.ref .basic_data_type, .ref .accesstype,
      .ref .addressingtype, .ref .onreadtype, .ref .onwritetype]
  | .boolean_literal => .choice [.sym "true", .sym "false"]
  | .number => .rex .num
  | .string_literal => .rex .str
  | .enumerator_literal => .seqs [.ref .identifier, .sym "::", .ref .identifier]
  | .accesstype_literal => .choice [.sym "na", .sym "rw", .sym "wr", .sym "r",
      .sym "w", .sym "rw1", .sym "w1"]
  | .onreadtype_literal => .choice [.sym "rclr", .sym "rset", .sym "ruser"]
  | .onwritetype_literal => .choice [.sym "woset", .sym "woclr", .sym "wot",
      .sym "wzs", .sym "wzc", .sym "wzt", .sym "wclr", .sym "wset", .sym "wuser"]
  | .addressingtype_literal => .choice [.sym "compact", .sym "regalign",
      .sym "fullalign"]
  | .precedencetype_literal => .choice [.sym "hw", .sym "sw"]
  | .accesstype => .ref .accesstype_literal
  | .addressingtype => .ref .addressingtype_literal
  | .onreadtype => .ref .onreadtype_literal
  | .onwritetype => .ref .onwritetype_literal
  | .constant_expression => .precLeft (.seqs [.ref .constant_primary,
      .rep (.seqs [.ref .binary_operator, .ref .constant_primary]),
      .opt (.seqs [.sym "?", .ref .constant_expression, .sym ":",
        .ref .constant_expression])])
  | .constant_primary => .seqs [.opt (.ref .unary_operator),
      .choice [.ref .primary_literal, .ref .constant_concatenation,
        .ref .constant_multiple_concatenation,
        .seqs [.sym "(", .ref .constant_expression, .sym ")"],
        .ref .constant_cast, .ref .instance_or_prop_ref,
        .ref .struct_literal, .ref .array_literal]]
  | .primary_literal => .choice [.ref .number, .ref .string_literal,
      .ref .boolean_literal, .ref .accesstype_literal, .ref .onreadtype_literal,
      .ref .onwritetype_literal, .ref .addressingtype_literal,
      .ref .enumerator_literal, .sym "this"]
  | .binary_operator => .choice [.sym "&&", .sym "||", .sym "<=", .sym ">=",
      .sym "==", .sym "!=", .sym ">>", .sym "<<", .sym "<", .sym ">", .sym "&",
      .sym "|", .sym "^", .sym "~^", .sym "^~", .sym "*", .sym "/", .sym "%",
      .sym "+", .sym "-", .sym "**"]
  | .unary_operator => .choice [.sym "!", .sym "+", .sym "-", .sym "~", .sym "&",
      .sym "~&", .sym "|", .sym "~|", .sym "^", .sym "~^", .sym "^~"]
  | .constant_cast => .seqs [.ref .casting_type, .sym "\x27", .sym "(",
      .ref .constant_expression, .sym ")"]
  | .casting_type => .choice [.ref .simple_type, .ref .boolean_literal,
      .ref .identifier]
  | .identifier => .rex .ident
  | .comment => .rex .comm
  | .ERROR => .choice []

/-- Hidden rules (leading underscore in grammar.js) produce no node of
their own; their children are spliced into the parent.  The only hidden
rule is `_description`. -/
def isHidden : RName → Bool
  | .description' => true
  | _ => false

/-- Concrete-syntax-tree nodes: a named node (kind = rule name) with
ordered children, an anonymous leaf token, or a field-tagged child (the
`field('name', ...)` annotations of grammar.js). -/
inductive CST where
  | node : RName → List CST → CST
  | tok : String → CST
  | fld : String → CST → CST

/-- Parse outcome: success with a value, definite failure (no alternative
matches), or fuel exhaustion (so that a `fail` outcome is a genuine
rejection, never a truncation artifact). -/
inductive PResult (α : Type) where
  | ok : α → PResult α
  | fail : PResult α
  | fuelOut : PResult α

/-- Wrap the result list of a `field(...)` combinator: a single produced
child gets the field tag. -/
def packFld (nm : String) (cs : List CST) : List CST :=
  match cs with
  | [c] => [CST.fld nm c]
  | _ => cs

/-- The parsing engine, modelled from the spec over the embedded rule
table: a fuel-bounded interpreter of the tree-sitter combinators.
Modelled from the spec: the generated runtime parser (`src/parser.c`,
referenced by the build descriptors but not present under `src/`) is
described in the spec as committing to the first alternative in declared
priority order at each ambiguity, so `choice` is ordered first-success,
`optional`/`repeat` are greedy, and every recursive call consumes one unit
of fuel (fuel exhaustion is reported separately from failure).  Named rule
references produce a node of that kind; the hidden `_description` splices
its children; `token(...)` rules match one input token against the
corresponding lexical matcher. -/
def runR : Nat → Rule → List String → PResult (List CST × List String)
  | 0, _, _ => .fuelOut
  | _ + 1, .sym _, [] => .fail
  | _ + 1, .sym s, t :: ts => if t = s then .ok ([CST.tok t], ts) else .fail
  | _ + 1, .rex _, [] => .fail
  | _ + 1, .rex k, t :: ts => if tkMatch k t then .ok ([CST.tok t], ts) else .fail
  | f + 1, .ref n, ts =>
    match runR f (rules n) ts with
    | .ok (cs, rest) =>
      .ok (if isHidden n then cs else [CST.node n cs], rest)
    | .fail => .fail
    | .fuelOut => .fuelOut
  | _ + 1, .seqs [], ts => .ok ([], ts)
  | f + 1, .seqs (r :: rs), ts =>
    match runR f r ts with
    | .ok (cs1, ts1) =>
      match runR f (.seqs rs) ts1 with
      | .ok (cs2, ts2) => .ok (cs1 ++ cs2, ts2)
      | .fail => .fail
      | .fuelOut => .fuelOut
    | .fail => .fail
    | .fuelOut => .fuelOut
  | _ + 1, .choice [], _ => .fail
  | f + 1, .choice (r :: rs), ts =>
    match runR f r ts with
    | .ok x => .ok x
    | .fail => runR f (.choice rs) ts
    | .fuelOut => .fuelOut
  | f + 1, .rep r, ts =>
    match runR f r ts with
    | .fail => .ok ([], ts)
    | .fuelOut => .fuelOut
    | .ok (cs, rest) =>
      if rest.length < ts.length then
        match runR f (.rep r) rest with
        | .ok (cs', rest') => .ok (cs ++ cs', rest')
        | .fail => .ok (cs, rest)
        | .fuelOut => .fuelOut
      else .ok ([], ts)
  | f + 1, .rep1 r, ts =>
    match runR f r ts with
    | .fail => .fail
    | .fuelOut => .fuelOut
    | .ok (cs, rest) =>
      if rest.length < ts.length then
        match runR f (.rep r) rest with
        | .ok (cs', rest') => .ok (cs ++ cs', rest')
        | .fail => .ok (cs, rest)
        | .fuelOut => .fuelOut
      else .ok (cs, rest)
  | f + 1, .opt r, ts =>
    match runR f r ts with
    | .ok x => .ok x
    | .fail => .ok ([], ts)
    | .fuelOut => .fuelOut
  | f + 1, .fld nm r, ts =>
    match runR f r ts with
    | .ok (cs, rest) => .ok (packFld nm cs, rest)
    | .fail => .fail
    | .fuelOut => .fuelOut
  | f + 1, .precLeft r, ts => runR f r ts

/-- Default fuel: ample for every concrete input considered here (fuel
bounds the depth of the interpreter's call tree, not the input length). -/
def FUEL : Nat := 500

/-- Parse a token list as one complete node of the given rule kind
(success only when the whole input is consumed and a single node is
produced). -/
def parseOne (n : RName) (ts : List String) : Option CST :=
  match runR FUEL (.ref n) ts with
  | .ok ([c], []) => some c
  | _ => none

mutual
/-- Leaf token texts of a tree, in order. -/
def leaves : CST → List String
  | .tok t => [t]
  | .node _ cs => leavesL cs
  | .fld _ c => leaves c
/-- Leaf token texts of a forest, in order. -/
def leavesL : List CST → List String
  | [] => []
  | c :: cs => leaves c ++ leavesL cs
end

mutual
/-- Whether a tree contains a node of the given kind. -/
def containsKind : CST → RName → Bool
  | .tok _, _ => false
  | .fld _ c, k => containsKind c k
  | .node n cs, k => n == k || containsKindL cs k
/-- Whether a forest contains a node of the given kind. -/
def containsKindL : List CST → RName → Bool
  | [], _ => false
  | c :: cs, k => containsKind c k || containsKindL cs k
end

mutual
/-- Number of nodes of the given kind in a tree. -/
def countKind : CST → RName → Nat
  | .tok _, _ => 0
  | .fld _ c, k => countKind c k
  | .node n cs, k => (if n == k then 1 else 0) + countKindL cs k
/-- Number of nodes of the given kind in a forest. -/
def countKindL : List CST → RName → Nat
  | [], _ => 0
  | c :: cs, k => countKind c k + countKindL cs k
end

mutual
/-- Leaf texts under each node of the given kind, in order. -/
def toksOfKind : RName → CST → List String
  | _, .tok _ => []
  | k, .fld _ c => toksOfKind k c
  | k, .node n cs => if n == k then leavesL cs else toksOfKindL k cs
/-- Leaf texts under each node of the given kind in a forest. -/
def toksOfKindL : RName → List CST → List String
  | _, [] => []
  | k, c :: cs => toksOfKind k c ++ toksOfKindL k cs
end

mutual
/-- First node of the given kind in preorder, if any. -/
def findKind : RName → CST → Option CST
  | _, .tok _ => none
  | k, .fld _ c => findKind k c
  | k, .node n cs => if n == k then some (.node n cs) else findKindL k cs
/-- First node of the given kind in preorder in a forest, if any. -/
def findKindL : RName → List CST → Option CST
  | _, [] => none
  | k, c :: cs =>
    match findKind k c with
    | some d => some d
    | none => findKindL k cs
end

mutual
/-- Whether a rule body syntactically references the given rule name. -/
def mentions : Rule → RName → Bool
  | .ref m, n => m == n
  | .seqs rs, n => mentionsL rs n
  | .choice rs, n => mentionsL rs n
  | .rep r, n => mentions r n
  | .rep1 r, n => mentions r n
  | .opt r, n => mentions r n
  | .fld _ r, n => mentions r n
  | .precLeft r, n => mentions r n
  | .sym _, _ => false
  | .rex _, _ => false
/-- Whether any rule in a list references the given rule name. -/
def mentionsL : List Rule → RName → Bool
  | [], _ => false
  | r :: rs, n => mentions r n || mentionsL rs n
end

/-- The error-recovering top-level loop, modelled from the spec: the
runtime repeatedly parses one `_description`; when no rule applies it
wraps the offending token in an `ERROR` node and continues, so parsing
always terminates with leaves covering the whole input.  The first
argument is a step bound (any remaining input at exhaustion is likewise
wrapped in `ERROR` nodes, preserving coverage). -/
def parseTopF : Nat → List String → List CST
  | _, [] => []
  | 0, ts => ts.map (fun t => CST.node .ERROR [CST.tok t])
  | g + 1, t :: ts =>
    match runR FUEL (.ref .description') (t :: ts) with
    | .ok (cs, rest) =>
      if rest.length < ts.length + 1 then cs ++ parseTopF g rest
      else CST.node .ERROR [CST.tok t] :: parseTopF g ts
    | _ => CST.node .ERROR [CST.tok t] :: parseTopF g ts

/-- Full error-tolerant parse of a token list as a source file. -/
def parseSource (ts : List String) : CST :=
  CST.node .source_file (parseTopF ts.length ts)

theorem leavesL_append (a b : List CST) :
    leavesL (a ++ b) = leavesL a ++ leavesL b := by
  induction a with
  | nil => rfl
  | cons c cs ih => simp [leavesL, ih]

theorem leavesL_packFld (nm : String) (cs : List CST) :
    leavesL (packFld nm cs) = leavesL cs := by
  cases cs with
  | nil => rfl
  | cons c cs' => cases cs' <;> simp [packFld, leavesL, leaves]

/-- Soundness of the interpreter with respect to input coverage: a
successful parse produces a forest whose leaves are exactly the consumed
prefix of the input. -/
theorem runR_sound : ∀ (f : Nat) (r : Rule) (ts cs rest : _),
    runR f r ts = .ok (cs, rest) → leavesL cs ++ rest = ts := by
  intro f
  induction f with
  | zero =>
    intro r ts cs rest h
    simp [runR] at h
  | succ f ih =>
    intro r ts cs rest h
    cases r with
    | sym s =>
      cases ts with
      | nil => simp [runR] at h
      | cons t ts' =>
        simp only [runR] at h
        split at h
        · simp only [PResult.ok.injEq, Prod.mk.injEq] at h
          obtain ⟨h1, h2⟩ := h
          subst h1; subst h2
          simp [leavesL, leaves]
        · cases h
    | rex k =>
      cases ts with
      | nil => simp [runR] at h
      | cons t ts' =>
        simp only [runR] at h
        split at h
        · simp only [PResult.ok.injEq, Prod.mk.injEq] at h
          obtain ⟨h1, h2⟩ := h
          subst h1; subst h2
          simp [leavesL, leaves]
        · cases h
    | ref n =>
      simp only [runR] at h
      split at h
      next cs0 rest0 hr =>
        simp only [PResult.ok.injEq, Prod.mk.injEq] at h
        obtain ⟨h1, h2⟩ := h
        subst h1; subst h2
        have e := ih (rules n) ts cs0 rest0 hr
        by_cases hh : isHidden n
        · simpa [hh] using e
        · simpa [hh, leavesL, leaves] using e
      next hr => cases h
      next hr => cases h
    | seqs rs =>
      cases rs with
      | nil =>
        simp only [runR, PResult.ok.injEq, Prod.mk.injEq] at h
        obtain ⟨h1, h2⟩ := h
        subst h1; subst h2
        rfl
      | cons r0 rs' =>
        simp only [runR] at h
        split at h
        next cs1 ts1 hr1 =>
          split at h
          next cs2 ts2 hr2 =>
            simp only [PResult.ok.injEq, Prod.mk.injEq] at h
            obtain ⟨h1, h2⟩ := h
            subst h1; subst h2
            have e1 := ih r0 ts cs1 ts1 hr1
            have e2 := ih (.seqs rs') ts1 cs2 ts2 hr2
            rw [leavesL_append, List.append_assoc, e2, e1]
          next hr2 => cases h
          next hr2 => cases h
        next hr1 => cases h
        next hr1 => cases h
    | choice rs =>
      cases rs with
      | nil => simp [runR] at h
      | cons r0 rs' =>
        simp only [runR] at h
        split at h
        next x hr =>
          obtain ⟨xc, xr⟩ := x
          simp only [PResult.ok.injEq, Prod.mk.injEq] at h
          obtain ⟨h1, h2⟩ := h
          subst h1; subst h2
          exact ih r0 ts xc xr hr
        next hr => exact ih (.choice rs') ts cs rest h
        next hr => cases h
    | rep r0 =>
      simp only [runR] at h
      split at h
      next hr => -- fail: ok ([], ts)
        simp only [PResult.ok.injEq, Prod.mk.injEq] at h
        obtain ⟨h1, h2⟩ := h
        subst h1; subst h2
        rfl
      next hr => cases h
      next cs1 rest1 hr1 =>
        split at h
        · split at h
          next cs2 rest2 hr2 =>
            simp only [PResult.ok.injEq, Prod.mk.injEq] at h
            obtain ⟨h1, h2⟩ := h
            subst h1; subst h2
            have e1 := ih r0 ts cs1 rest1 hr1
            have e2 := ih (.rep r0) rest1 cs2 rest2 hr2
            rw [leavesL_append, List.append_assoc, e2, e1]
          next hr2 =>
            simp only [PResult.ok.injEq, Prod.mk.injEq] at h
            obtain ⟨h1, h2⟩ := h
            subst h1; subst h2
            exact ih r0 ts cs1 rest1 hr1
          next hr2 => cases h
        · simp only [PResult.ok.injEq, Prod.mk.injEq] at h
          obtain ⟨h1, h2⟩ := h
          subst h1; subst h2
          rfl
    | rep1 r0 =>
      simp only [runR] at h
      split at h
      next hr => cases h
      next hr => cases h
      next cs1 rest1 hr1 =>
        split at h
        · split at h
          next cs2 rest2 hr2 =>
            simp only [PResult.ok.injEq, Prod.mk.injEq] at h
            obtain ⟨h1, h2⟩ := h
            subst h1; subst h2
            have e1 := ih r0 ts cs1 rest1 hr1
            have e2 := ih (.rep r0) rest1 cs2 rest2 hr2
            rw [leavesL_append, List.append_assoc, e2, e1]
          next hr2 =>
            simp only [PResult.ok.injEq, Prod.mk.injEq] at h
            obtain ⟨h1, h2⟩ := h
            subst h1; subst h2
            exact ih r0 ts cs1 rest1 hr1
          next hr2 => cases h
        · simp only [PResult.ok.injEq, Prod.mk.injEq] at h
          obtain ⟨h1, h2⟩ := h
          subst h1; subst h2
          exact ih r0 ts cs1 rest1 hr1
    | opt r0 =>
      simp only [runR] at h
      split at h
      next x hr =>
        obtain ⟨xc, xr⟩ := x
        simp only [PResult.ok.injEq, Prod.mk.injEq] at h
        obtain ⟨h1, h2⟩ := h
        subst h1; subst h2
        exact ih r0 ts xc xr hr
      next hr =>
        simp only [PResult.ok.injEq, Prod.mk.injEq] at h
        obtain ⟨h1, h2⟩ := h
        subst h1; subst h2
        rfl
      next hr => cases h
    | fld nm r0 =>
      simp only [runR] at h
      split at h
      next cs0 rest0 hr =>
        simp only [PResult.ok.injEq, Prod.mk.injEq] at h
        obtain ⟨h1, h2⟩ := h
        subst h1; subst h2
        rw [leavesL_packFld]
        exact ih r0 ts cs0 rest0 hr
      next hr => cases h
      next hr => cases h
    | precLeft r0 =>
      simp only [runR] at h
      exact ih r0 ts cs rest h

theorem leavesL_map_err (ts : List String) :
    leavesL (ts.map (fun t => CST.node .ERROR [CST.tok t])) = ts := by
  induction ts with
  | nil => rfl
  | cons t ts ih => simp [leavesL, leaves, ih]

/-- Coverage of the error-recovering loop: whatever the step bound and the
input, the leaves of the produced forest are exactly the input tokens. -/
theorem parseTopF_covers : ∀ (g : Nat) (ts : List String),
    leavesL (parseTopF g ts) = ts := by
  intro g
  induction g with
  | zero =>
    intro ts
    cases ts with
    | nil => rfl
    | cons t ts' => simp [parseTopF, leavesL, leaves, leavesL_map_err]
  | succ g ihg =>
    intro ts
    cases ts with
    | nil => rfl
    | cons t ts' =>
      simp only [parseTopF]
      split
      next cs rest hr =>
        split
        · rw [leavesL_append, ihg rest, runR_sound _ _ _ _ _ hr]
        · simp [leavesL, leaves, ihg ts']
      next hr => simp [leavesL, leaves, ihg ts']

/-- Modelled from the spec's words (claim C7): the first character is not
an underscore ("never leading"). -/
def headNotUnd : List Char → Bool
  | [] => false
  | c :: _ => !(c == '_')

/-- Modelled from the spec's words (claim C7): the last character is not
an underscore ("never trailing"); vacuously true for the empty list. -/
def lastNotUnd : List Char → Bool
  | [] => true
  | [c] => !(c == '_')
  | _ :: cs => lastNotUnd cs

/-- Modelled from the spec's words (claim C7): no two adjacent
underscores ("never doubled"). -/
def noDoubleUnd : List Char → Bool
  | c :: d :: cs => !(c == '_' && d == '_') && noDoubleUnd (d :: cs)
  | _ => true

/-- Modelled from the spec's words (claim C7): a digit string of the given
base in which a single underscore may appear only between two digits —
nonempty, every character a digit or an underscore, and no leading,
trailing, or doubled underscore. -/
def specBody (isD : Char → Bool) (l : List Char) : Bool :=
  headNotUnd l && l.all (fun c => isD c || c == '_') && lastNotUnd l && noDoubleUnd l

/-- Modelled from the spec's words (claim C7): a radix-prefixed form `0`
followed by one of two prefix letters and a digit body with underscore
separators. -/
def specPre (lo hi : Char) (isD : Char → Bool) (l : List Char) : Bool :=
  match l with
  | c0 :: c1 :: rest => c0 == '0' && (c1 == lo || c1 == hi) && specBody isD rest
  | _ => false

/-- Modelled from the spec's words (claim C7): a number token is a
hexadecimal (`0x`/`0X`), binary (`0b`/`0B`), octal (`0o`/`0O`), or decimal
form whose digits may be separated by single underscores appearing only
between two digits. -/
def specNumber (s : String) : Bool :=
  specPre 'x' 'X' isHexDigit s.data || specPre 'b' 'B' isBinDigit s.data ||
  specPre 'o' 'O' isOctDigit s.data || specBody isDecDigit s.data

theorem lastNotUnd_cons (c : Char) (cs : List Char) (hc : (c == '_') = false) :
    lastNotUnd (c :: cs) = lastNotUnd cs := by
  cases cs <;> simp [lastNotUnd, hc]

theorem noDoubleUnd_cons (c : Char) (cs : List Char) (hc : (c == '_') = false) :
    noDoubleUnd (c :: cs) = noDoubleUnd cs := by
  cases cs <;> simp [noDoubleUnd, hc]

/-- The separator-chain fragment `(_? d)*` of the number regex accepts
exactly the digit/underscore strings with no trailing or doubled
underscore (a leading underscore is permitted here because the fragment
follows an initial digit). -/
theorem chainTail_spec (isD : Char → Bool) (hD : isD '_' = false) :
    ∀ l : List Char,
      chainTail isD l
        = (l.all (fun c => isD c || c == '_') && lastNotUnd l && noDoubleUnd l) := by
  have key : ∀ n : Nat, ∀ l : List Char, l.length ≤ n →
      chainTail isD l
        = (l.all (fun c => isD c || c == '_') && lastNotUnd l && noDoubleUnd l) := by
    intro n
    induction n with
    | zero =>
      intro l hl
      obtain rfl : l = [] := List.length_eq_zero.mp (Nat.le_zero.mp hl)
      rfl
    | succ n ih =>
      intro l hl
      match l with
      | [] => rfl
      | c :: cs =>
        by_cases hc : c = '_'
        · subst hc
          match cs with
          | [] => simp [chainTail, lastNotUnd]
          | d :: ds =>
            by_cases hd : d = '_'
            · subst hd
              simp [chainTail, hD, noDoubleUnd]
            · have hds : ds.length ≤ n := by
                simp only [List.length_cons] at hl
                omega
              have hd' : (d == '_') = false := by simp [hd]
              have lhs : chainTail isD ('_' :: d :: ds) = (isD d && chainTail isD ds) := by
                simp [chainTail]
              have e1 : lastNotUnd ('_' :: d :: ds) = lastNotUnd ds := by
                have e0 : lastNotUnd ('_' :: d :: ds) = lastNotUnd (d :: ds) := rfl
                rw [e0, lastNotUnd_cons d ds hd']
              have e2 : noDoubleUnd ('_' :: d :: ds) = noDoubleUnd ds := by
                have e0 : noDoubleUnd ('_' :: d :: ds)
                    = (!('_' == '_' && d == '_') && noDoubleUnd (d :: ds)) := rfl
                rw [e0, noDoubleUnd_cons d ds hd', hd']
                simp
              rw [lhs, ih ds hds, e1, e2]
              simp only [List.all_cons, hD, hd', Bool.false_or, Bool.or_false,
                beq_self_eq_true, Bool.or_true, Bool.true_and]
              cases hA : isD d <;>
                cases hB : ds.all (fun c => isD c || c == '_') <;>
                cases hC : lastNotUnd ds <;>
                cases hE : noDoubleUnd ds <;>
                simp
        · have hcs : cs.length ≤ n := by
            simp only [List.length_cons] at hl
            omega
          have hc' : (c == '_') = false := by simp [hc]
          have lhs : chainTail isD (c :: cs) = (isD c && chainTail isD cs) := by
            conv_lhs => unfold chainTail
            rw [if_neg hc]
          rw [lhs, ih cs hcs]
          simp only [List.all_cons, hc', Bool.or_false,
            lastNotUnd_cons _ _ hc', noDoubleUnd_cons _ _ hc']
          cases hA : isD c <;>
            cases hB : cs.all (fun c => isD c || c == '_') <;>
            cases hC : lastNotUnd cs <;>
            cases hE : noDoubleUnd cs <;>
            simp
  intro l
  exact key l.length l le_rfl

/-- The digit-body fragment `d (_? d)*` of the number regex accepts
exactly the spec-side digit/underscore strings (claim C7's
characterization). -/
theorem chain1_spec (isD : Char → Bool) (hD : isD '_' = false) (l : List Char) :
    chain1 isD l = specBody isD l := by
  cases l with
  | nil => rfl
  | cons c cs =>
    by_cases hc : c = '_'
    · subst hc
      simp [chain1, specBody, headNotUnd, hD]
    · have hc' : (c == '_') = false := by simp [hc]
      have lhs : chain1 isD (c :: cs) = (isD c && chainTail isD cs) := rfl
      rw [lhs, chainTail_spec isD hD cs]
      simp only [specBody, headNotUnd, hc', Bool.not_false, List.all_cons,
        Bool.or_false, lastNotUnd_cons _ _ hc', noDoubleUnd_cons _ _ hc',
        Bool.true_and]
      cases hA : isD c <;>
        cases hB : cs.all (fun c => isD c || c == '_') <;>
        cases hC : lastNotUnd cs <;>
        cases hE : noDoubleUnd cs <;>
        simp

theorem hexB_spec (l : List Char) : hexB l = specPre 'x' 'X' isHexDigit l := by
  match l with
  | [] => rfl
  | [_] => rfl
  | c0 :: c1 :: rest =>
    simp [hexB, specPre, chain1_spec isHexDigit (by decide) rest]

theorem binB_spec (l : List Char) : binB l = specPre 'b' 'B' isBinDigit l := by
  match l with
  | [] => rfl
  | [_] => rfl
  | c0 :: c1 :: rest =>
    simp [binB, specPre, chain1_spec isBinDigit (by decide) rest]

theorem octB_spec (l : List Char) : octB l = specPre 'o' 'O' isOctDigit l := by
  match l with
  | [] => rfl
  | [_] => rfl
  | c0 :: c1 :: rest =>
    simp [octB, specPre, chain1_spec isOctDigit (by decide) rest]

/-- The alternatives of the `choice` inside `constant_primary`
(grammar.js lines 461-473). -/
def cpAlts : List Rule :=
  match rules .constant_primary with
  | .seqs [_, .choice alts] => alts
  | _ => []

/-- The rule names directly referenced by the `constant_primary`
alternatives, in declared order (`none` for the parenthesized-expression
alternative, which is an inline sequence). -/
def cpAltRefs : List (Option RName) :=
  cpAlts.map (fun r => match r with | .ref n => some n | _ => none)

mutual
/-- Whether a rule body carries a parse-precedence annotation
(`prec.left` is the only one used in grammar.js; the `prec(2, ...)` on the
`identifier` token is lexical precedence, not parse precedence). -/
def hasPrec : Rule → Bool
  | .precLeft _ => true
  | .seqs rs => hasPrecL rs
  | .choice rs => hasPrecL rs
  | .rep r => hasPrec r
  | .rep1 r => hasPrec r
  | .opt r => hasPrec r
  | .fld _ r => hasPrec r
  | .sym _ => false
  | .rex _ => false
  | .ref _ => false
/-- Whether any rule in a list carries a parse-precedence annotation. -/
def hasPrecL : List Rule → Bool
  | [] => false
  | r :: rs => hasPrec r || hasPrecL rs
end

/-- The binary operator spellings, in the declared order of the
`binary_operator` choice (grammar.js lines 488-490). -/
def binOps : List String :=
  ["&&", "||", "<=", ">=", "==", "!=", ">>", "<<", "<", ">", "&", "|", "^",
   "~^", "^~", "*", "/", "%", "+", "-", "**"]

/-- Check that `1 o1 2 o2 3` parses as a single flat `constant_expression`
node whose children are three `constant_primary` nodes interleaved with
the two operators in input order (no nested sub-expression grouping). -/
def flatChainChk (o1 o2 : String) : Bool :=
  match parseOne .constant_expression ["1", o1, "2", o2, "3"] with
  | some (.node .constant_expression
      [.node .constant_primary _, .node .binary_operator [.tok a],
       .node .constant_primary _, .node .binary_operator [.tok b],
       .node .constant_primary _]) => a == o1 && b == o2
  | _ => false

/-- Contextual keywords exercised for claim C2: property keywords,
access-type keywords, and the component-type names. -/
def contextualKws : List String :=
  ["sw", "hw", "rw", "r", "addrmap", "regfile", "reg", "field", "mem", "signal"]

/-- Check that `bit <kw> ;` parses as a `struct_elem` whose `name` field
holds a plain `identifier` node for the given word. -/
def structElemNameIsIdent (kw : String) : Bool :=
  match parseOne .struct_elem ["bit", kw, ";"] with
  | some (.node .struct_elem
      [.node .struct_type _,
       .fld "name" (.node .identifier [.tok t]),
       .tok ";"]) => t == kw
  | _ => false

/-- Token list of a `component_inst` carrying exactly the chosen subset of
the five optional suffixes, in the grammar's declared order. -/
def instToks (b1 b2 b3 b4 b5 : Bool) : List String :=
  ["x"] ++ (if b1 then ["[", "3", "]"] else [])
    ++ (if b2 then ["=", "1"] else [])
    ++ (if b3 then ["@", "2"] else [])
    ++ (if b4 then ["+=", "4"] else [])
    ++ (if b5 then ["%=", "8"] else [])

/-- Token list of the spec's property-definition example, without the
trailing semicolon exactly as the spec writes it. -/
def toksC6bad : List String :=
  ["property", "p1", "\x7b", "default", "=", "\x7b", "1", ",", "2", ",", "3",
   "\x7d", ";", "\x7d"]

/-- Token list of the property-definition example with the trailing
semicolon that `property_definition` requires. -/
def toksC6 : List String := toksC6bad ++ [";"]

set_option maxRecDepth 100000

/-- C1: a brace-enclosed comma-separated expression list such as `{1,2,3}`
in a constant-expression position parses as a `constant_concatenation`
node and never as an `array_literal` node: the parse of the token list
through `constant_expression` (the entry point of every
constant-expression position) contains a `constant_concatenation` and no
`array_literal`; `constant_concatenation` is declared before
`array_literal` in the `constant_primary` choice (so the declared-priority
resolver prefers it); and `array_literal` is referenced by no rule other
than `constant_primary` — a rule which also admits
`constant_concatenation` — so no grammar position admits only
`array_literal`. -/
theorem c1_concatenation_preferred :
    ((parseOne .constant_expression ["\x7b", "1", ",", "2", ",", "3", "\x7d"]).map
        (fun c => (containsKind c .constant_concatenation, containsKind c .array_literal))
      = some (true, false)) ∧
    cpAltRefs.indexOf (some RName.constant_concatenation)
      < cpAltRefs.indexOf (some RName.array_literal) ∧
    (∀ n : RName, mentions (rules n) RName.array_literal = false
      ∨ n = RName.constant_primary) ∧
    mentions (rules RName.constant_primary) RName.constant_concatenation = true :=
  ⟨rfl, by decide, by decide, rfl⟩

/-- C2: a contextual keyword at a grammar position requiring an identifier
is accepted as a plain `identifier` node: every listed contextual keyword
matches the `identifier` token regex; for each of them `bit <kw> ;` parses
as a `struct_elem` whose `name` field is an `identifier` node; any token
text matching the identifier regex is accepted by the `identifier` rule as
an identifier leaf; and in particular `bit sw;` parses as a `struct_elem`
whose `name` field token is an `identifier` (not a keyword-specific
node). -/
theorem c2_contextual_keyword_identifier :
    contextualKws.all identMatches = true ∧
    contextualKws.all structElemNameIsIdent = true ∧
    (∀ (f : Nat) (t : String) (ts : List String), identMatches t = true →
      runR (f + 2) (.ref .identifier) (t :: ts)
        = .ok ([CST.node .identifier [CST.tok t]], ts)) ∧
    parseOne .struct_elem ["bit", "sw", ";"]
      = some (.node .struct_elem
          [.node .struct_type [.node .data_type [.node .basic_data_type
            [.node .simple_type [.node .integer_type
              [.node .integer_vector_type [.tok "bit"]]]]]],
           .fld "name" (.node .identifier [.tok "sw"]),
           .tok ";"]) := by
  refine ⟨by decide, by decide, ?_, rfl⟩
  intro f t ts h
  have h2 : tkMatch .ident t = true := h
  show runR ((f + 1) + 1) (.ref .identifier) (t :: ts) = _
  simp only [runR, rules, h2, if_true, isHidden]
  simp

/-- Witness for C2's general identifier-acceptance conjunct at the
concrete contextual keyword `sw`. -/
theorem c2_contextual_keyword_identifier_witness :
    identMatches "sw" = true ∧
    runR (0 + 2) (.ref .identifier) ["sw"]
      = .ok ([CST.node .identifier [CST.tok "sw"]], []) :=
  ⟨by decide, c2_contextual_keyword_identifier.2.2.1 0 "sw" [] (by decide)⟩

/-- C3: every constant expression is a primary followed by zero or more
(binary-operator, primary) pairs at a single shared precedence tier with
an optional single ternary suffix: the `constant_expression` rule has
exactly that shape; `binary_operator` is one flat choice of all 21
operator spellings; no rule other than `constant_expression` carries any
parse-precedence annotation; for every pair of binary operators the parse
of `1 o1 2 o2 3` is a single flat chain node with no sub-grouping (so no
operator binds tighter than another); and concretely `1 + 2 * 3` parses
as the flat left-to-right chain. -/
theorem c3_single_tier_left_chain :
    rules .constant_expression
      = .precLeft (.seqs [.ref .constant_primary,
          .rep (.seqs [.ref .binary_operator, .ref .constant_primary]),
          .opt (.seqs [.sym "?", .ref .constant_expression, .sym ":",
            .ref .constant_expression])]) ∧
    rules .binary_operator = .choice (binOps.map Rule.sym) ∧
    (∀ n : RName, hasPrec (rules n) = false ∨ n = RName.constant_expression) ∧
    binOps.all (fun o1 => binOps.all (fun o2 => flatChainChk o1 o2)) = true ∧
    parseOne .constant_expression ["1", "+", "2", "*", "3"]
      = some (.node .constant_expression
          [.node .constant_primary [.node .primary_literal [.node .number [.tok "1"]]],
           .node .binary_operator [.tok "+"],
           .node .constant_primary [.node .primary_literal [.node .number [.tok "2"]]],
           .node .binary_operator [.tok "*"],
           .node .constant_primary [.node .primary_literal [.node .number [.tok "3"]]]]) :=
  ⟨rfl, rfl, by decide, by decide, rfl⟩

/-- C4: parsing always terminates with a tree whose leaves cover the whole
input, wrapping unparseable spans in `ERROR` nodes instead of aborting:
for every step bound and every token list the error-recovering loop's
leaves are exactly the input; the source-file parse covers every input;
and the malformed input `reg r1 {` yields a tree that contains an `ERROR`
node and still covers all three tokens. -/
theorem c4_error_recovery_total_coverage :
    (∀ (g : Nat) (ts : List String), leavesL (parseTopF g ts) = ts) ∧
    (∀ ts : List String, leaves (parseSource ts) = ts) ∧
    containsKind (parseSource ["reg", "r1", "\x7b"]) .ERROR = true ∧
    leaves (parseSource ["reg", "r1", "\x7b"]) = ["reg", "r1", "\x7b"] := by
  refine ⟨parseTopF_covers, ?_, rfl, rfl⟩
  intro ts
  show leavesL (parseTopF ts.length ts) = ts
  exact parseTopF_covers ts.length ts

/-- C5: in a `component_inst`, the array-or-range suffix, `= expr`,
`@ expr`, `+= expr`, and `%= expr` are independently optional: for every
subset of the five suffixes (in the grammar's declared order, including
nonsensical combinations such as both `@` and `+=`), the instance
declaration parses completely; and the rule is literally a sequence of
five independent `optional` combinators after the instance name. -/
theorem c5_component_inst_suffixes :
    (∀ b1 b2 b3 b4 b5 : Bool,
      (parseOne .component_inst (instToks b1 b2 b3 b4 b5)).isSome = true) ∧
    rules .component_inst = .seqs [.fld "instance" (.ref .identifier),
      .opt (.ref .component_inst_array_or_range),
      .opt (.seqs [.sym "=", .ref .constant_expression]),
      .opt (.seqs [.sym "@", .ref .constant_expression]),
      .opt (.seqs [.sym "+=", .ref .constant_expression]),
      .opt (.seqs [.sym "%=", .ref .constant_expression])] :=
  ⟨by decide, rfl⟩

/-- C6 counterexample: the spec's input `property p1 { default = {1,2,3}; }`
(no semicolon after the closing brace) is rejected by the
`property_definition` rule, which requires a trailing `;` — so the claim
that this exact input succeeds and yields a `property_definition` is
false on the grammar. -/
theorem c6_property_example_counterexample :
    runR FUEL (.ref .property_definition) toksC6bad = .fail := rfl

/-- C6 amended: with the trailing semicolon the grammar requires
(`property p1 { default = {1,2,3}; };`), parsing succeeds and the
`property_default` attribute's right-hand side parses as a
`constant_concatenation` of the three number primaries `1`, `2`, `3`
(and no `array_literal`). -/
theorem c6_property_example_amended :
    (parseOne .property_definition toksC6).isSome = true ∧
    ((parseOne .property_definition toksC6).bind (findKind .property_default)).map
        (fun d => (countKind d .constant_concatenation, toksOfKind .number d,
          containsKind d .array_literal))
      = some (1, ["1", "2", "3"], false) :=
  ⟨rfl, rfl⟩

/-- C7: a token is accepted as a number literal exactly when it is a
hexadecimal, binary, octal, or decimal form in which a single underscore
appears only between two digits: the `number` regex matcher agrees with
the spec-side characterization (prefix plus digit/underscore body with no
leading, trailing, or doubled underscore) on every string, and the
claim's concrete examples behave as stated. -/
theorem c7_number_token_forms :
    (∀ s : String, numberMatches s = specNumber s) ∧
    numberMatches "0xAB_CD" = true ∧ numberMatches "0b1_0" = true ∧
    numberMatches "0o7_7" = true ∧ numberMatches "1_000" = true ∧
    numberMatches "0x_1" = false ∧ numberMatches "1_" = false ∧
    numberMatches "1__2" = false := by
  refine ⟨?_, by decide, by decide, by decide, by decide, by decide, by decide,
    by decide⟩
  intro s
  unfold numberMatches specNumber decB
  rw [hexB_spec, binB_spec, octB_spec, chain1_spec isDecDigit (by decide)]

/-- C8 counterexample: the claim "any backslash-escaped character is
accepted" fails at the newline character: the escape branch of the
`string_literal` token regex is `seq('\\', /./)` and `.` does not match a
newline, so the four-character string `"\<newline>"` is not a single
`string_literal` token. -/
theorem c8_string_escape_counterexample :
    stringLitMatches (String.mk ['"', '\\', '\n', '"']) = false := rfl

/-- C8 amended: for every character `c` other than a newline, a
double-quoted string whose body is the backslash-escape pair `\c` is
accepted as a single `string_literal` token, with no further validation of
the escaped character. -/
theorem c8_string_escape_amended (c : Char) (h : c ≠ '\n') :
    stringLitMatches (String.mk ['"', '\\', c, '"']) = true := by
  have hc : (c == '\n') = false := by simp [h]
  show strTail ['\\', c, '"'] = true
  show (!(c == '\n') && strTail ['"']) = true
  rw [hc]
  rfl

/-- Witness for C8's amended theorem at the concrete character `a`. -/
theorem c8_string_escape_amended_witness :
    stringLitMatches (String.mk ['"', '\\', 'a', '"']) = true :=
  c8_string_escape_amended 'a' (by decide)

/-- C9: an enum definition requires at least one entry — `enum E { };` is
rejected (the `enum_body` rule uses `repeat1`), while an enum with one
entry parses, and the other brace bodies of the grammar (component body,
struct body, constraint body, and the property-definition body) each
accept zero elements. -/
theorem c9_enum_requires_entry :
    runR FUEL (.ref .enum_def) ["enum", "E", "\x7b", "\x7d", ";"] = .fail ∧
    (parseOne (.enum_def) ["enum", "E", "\x7b", "a", ";", "\x7d", ";"]).isSome = true ∧
    (parseOne .component_body ["\x7b", "\x7d"]).isSome = true ∧
    (parseOne .struct_body ["\x7b", "\x7d"]).isSome = true ∧
    (parseOne .constraint_body ["\x7b", "\x7d"]).isSome = true ∧
    (parseOne .property_definition ["property", "p", "\x7b", "\x7d", ";"]).isSome = true ∧
    rules .enum_body = .seqs [.sym "\x7b", .rep1 (.ref .enum_entry), .sym "\x7d"] :=
  ⟨rfl, rfl, rfl, rfl, rfl, rfl, rfl⟩

/-- C10: the `= value` part of a property assignment is optional: a bare
`foo;` parses as a complete explicit property assignment, a bare property
keyword `sw;` likewise, and a post-assignment `a.b->prop;` without
`= value` is accepted. -/
theorem c10_bare_prop_assignment :
    parseOne .property_assignment ["foo", ";"]
      = some (.node .property_assignment
          [.node .explicit_or_default_prop_assignment
            [.node .explicit_prop_assignment
              [.node .prop_assignment_lhs [.node .identifier [.tok "foo"]]],
             .tok ";"]]) ∧
    parseOne .property_assignment ["sw", ";"]
      = some (.node .property_assignment
          [.node .explicit_or_default_prop_assignment
            [.node .explicit_prop_assignment
              [.node .prop_assignment_lhs [.node .prop_keyword [.tok "sw"]]],
             .tok ";"]]) ∧
    parseOne .property_assignment ["a", ".", "b", "->", "prop", ";"]
      = some (.node .property_assignment
          [.node .post_prop_assignment
            [.node .prop_ref
              [.node .instance_ref
                [.node .instance_ref_element [.node .identifier [.tok "a"]],
                 .tok ".",
                 .node .instance_ref_element [.node .identifier [.tok "b"]]],
               .tok "->", .node .identifier [.tok "prop"]],
             .tok ";"]]) :=
  ⟨rfl, rfl, rfl⟩

end SystemRDL
